import Mathlib

/-
Verification of the WhisperWriter recording/composition core
(src/src/app/page.tsx, the modal-based page component, lines 389-763).

The component is a React page driving a MediaRecorder through
start/pause/resume/stop/cancel, merging asynchronous transcription
results into a cursor-tracked text buffer, and dispatching a formatting
request over the buffer.  We embed the mutable state of the component
(useState hooks and useRef cells) as a record, the browser event loop as
a queue of pending callbacks inside that record, and each user action or
asynchronous callback delivery as a labelled step of a deterministic
transition function.  Network calls to the transcription and formatting
services are recorded as emitted events; their resolutions are actions
carrying the service's answer.
-/

namespace WhisperWriter

/-- Recording state of the controller: the `RecordingState` union type in
page.tsx (`idle | recording | paused | stopped`). -/
inductive RecState
  | idle
  | recording
  | paused
  | stopped
deriving DecidableEq, Repr

/-- Processing stage shared by both async paths: the `ProcessingStage`
union type in page.tsx (`idle | transcribing | formatting | error | success`). -/
inductive Stage
  | idle
  | transcribing
  | formatting
  | error
  | success
deriving DecidableEq, Repr

/-- Selection range tracked in `transcriptionCursorPositionRef`
(`{ start, end }`, offsets into the transcription buffer). -/
structure Cursor where
  start : Nat
  endPos : Nat
deriving DecidableEq, Repr

/-- The MediaRecorder held in `mediaRecorderRef`, with the session id we
use to identify one capture attempt, the language the `onstop` closure
captured when recording started, and whether the recorder is still in a
non-`inactive` state. -/
structure Recorder where
  sid : Nat
  lang : Nat
  active : Bool
deriving DecidableEq, Repr

/-- Queued asynchronous continuations of the browser event loop:
a pending `onstop` callback of the recorder with session id `sid`
(closing over the language captured at start), a pending
`FileReader.onloadend` (the blob of size `size` already built), an
in-flight `transcribeAudio` call, and an in-flight `formatText` call. -/
inductive Pending
  | onstop (sid lang : Nat)
  | reader (sid size lang : Nat)
  | transcribing (sid lang : Nat)
  | formatting (text : List Char) (style lang : Nat)
deriving DecidableEq, Repr

/-- Observable network requests issued by the component: a call to the
transcription service and a call to the formatting service. -/
inductive Event
  | transcribeReq (sid size lang : Nat)
  | formatReq (text : List Char) (style lang : Nat)
deriving DecidableEq, Repr

/-- The whole mutable state of the page component: the five useState
hooks relevant to the core, the modal flag, and the useRef cells
(`mediaRecorderRef`, `audioChunksRef` as the list of chunk sizes,
`isCancelledRef`, `transcriptionCursorPositionRef`), plus the queue of
pending asynchronous callbacks and a counter producing fresh session
ids. -/
structure AppState where
  recordingState : RecState
  processingStage : Stage
  selectedLanguage : Nat
  transcription : List Char
  formattedText : List Char
  selectedStyle : Nat
  langModalOpen : Bool
  recorder : Option Recorder
  audioChunks : List Nat
  isCancelled : Bool
  cursor : Cursor
  pending : List Pending
  nextSid : Nat
deriving DecidableEq, Repr

/-- DEFAULT_LANGUAGE from whisper-writer-config.ts, as an opaque id. -/
def defaultLang : Nat := 0

/-- DEFAULT_FORMATTING_STYLE from whisper-writer-config.ts, as an opaque id. -/
def defaultStyle : Nat := 0

/-- User actions and asynchronous callback deliveries.  `startOk` /
`startFail` are a press of the record button with `getUserMedia`
resolving / rejecting; `fireOnstop`, `fireReader`, `resolveTranscribe`,
`failTranscribe`, `resolveFormat`, `failFormat` deliver the pending
callback of the given kind (for the given session id where relevant);
`edit` / `select` are the transcription textarea's onChange / onSelect
events (carrying the DOM's text and selection range); `dataAvail` is a
MediaRecorder `ondataavailable` event carrying a chunk of the given
size. -/
inductive Action
  | startOk
  | startFail
  | pause
  | resume
  | stopBtn
  | cancel
  | dataAvail (size : Nat)
  | fireOnstop (sid : Nat)
  | fireReader (sid : Nat)
  | resolveTranscribe (sid : Nat) (result : List Char)
  | failTranscribe (sid : Nat)
  | formatBtn
  | resolveFormat (result : List Char)
  | failFormat
  | reset
  | edit (text : List Char) (selStart selEnd : Nat)
  | select (selStart selEnd : Nat)
  | editFormatted (text : List Char)
  | openLangModal
  | selectLang (l : Nat)
  | quickLang (l : Nat)
  | setStyle (st : Nat)
deriving DecidableEq, Repr

/-- Size of the Blob finalized from the accumulated chunks
(`new Blob(audioChunksRef.current, ...)` followed by `.size`). -/
def chunkSum (l : List Nat) : Nat := l.sum

/-- The separator test of the merge in `setTranscription`:
`prev.length > 0 && start > 0 && prev[start - 1] !== ' '`.  In
JavaScript an out-of-range index yields `undefined`, which is `!== ' '`,
so the test compares the optional character against `some ' '`. -/
def sepNeeded (prev : List Char) (start : Nat) : Bool :=
  decide (0 < prev.length) && decide (0 < start)
    && !(decide (prev.get? (start - 1) = some ' '))

/-- The separator string inserted before the transcribed text. -/
def mergeSeparator (prev : List Char) (start : Nat) : List Char :=
  if sepNeeded prev start then [' '] else []

/-- Result of the merge: the new buffer contents and the new collapsed
cursor. -/
structure MergeOut where
  newText : List Char
  newCursor : Cursor
deriving DecidableEq, Repr

/-- The functional updater passed to `setTranscription` on a successful
transcription: `newText = prev.substring(0, start) + separator + result
+ prev.substring(end)` (JavaScript `substring` clamps its indices, as
`List.take` / `List.drop` do), and `newCursorPos = start + result.length
+ separator.length`, stored collapsed. -/
def mergeTranscription (prev : List Char) (cur : Cursor) (result : List Char) :
    MergeOut :=
  let sep := mergeSeparator prev cur.start
  let newText := prev.take cur.start ++ sep ++ result ++ prev.drop cur.endPos
  let p := cur.start + result.length + sep.length
  ⟨newText, ⟨p, p⟩⟩

/-- Modelled from the spec: the separator rule as the specification
words it ("insert a single space before the new text only if the buffer
is non-empty, start > 0, and the character immediately preceding `start`
is not already whitespace").  Kept separate from `sepNeeded`, which is
translated from the source, so the two rules can be compared. -/
def specSepNeeded (prev : List Char) (start : Nat) : Bool :=
  decide (0 < prev.length) && decide (0 < start)
    && !((prev.get? (start - 1)).elim false Char.isWhitespace)

/-- Does `p` match an `onstop` pending entry for session `sid`. -/
def isOnstopFor (sid : Nat) : Pending → Bool
  | .onstop i _ => i == sid
  | _ => false

/-- Does `p` match a `reader` pending entry for session `sid`. -/
def isReaderFor (sid : Nat) : Pending → Bool
  | .reader i _ _ => i == sid
  | _ => false

/-- Does `p` match a `transcribing` pending entry for session `sid`. -/
def isTranscribingFor (sid : Nat) : Pending → Bool
  | .transcribing i _ => i == sid
  | _ => false

/-- Does `p` match a `formatting` pending entry. -/
def isFormattingP : Pending → Bool
  | .formatting _ _ _ => true
  | _ => false

/-- First pending entry satisfying `f`, together with the queue with
that entry removed. -/
def takeFirst (f : Pending → Bool) : List Pending → Option (Pending × List Pending)
  | [] => none
  | p :: rest =>
    if f p then some (p, rest)
    else
      match takeFirst f rest with
      | some (q, rest') => some (q, p :: rest')
      | none => none

/-- Session id a pending entry belongs to (`none` for formatting, which
is not tied to a capture session). -/
def pendSid : Pending → Option Nat
  | .onstop i _ => some i
  | .reader i _ _ => some i
  | .transcribing i _ => some i
  | .formatting _ _ _ => none

/-- Is the pending entry an `onstop` callback. -/
def isOnstopP : Pending → Bool
  | .onstop _ _ => true
  | _ => false

/-- Session id of a transcription request event (`none` for formatting
requests). -/
def eventTranscribeSid : Event → Option Nat
  | .transcribeReq sid _ _ => some sid
  | .formatReq _ _ _ => none

/-- Is there a `transcribing` pending entry for session `sid`. -/
def hasTranscribing (sid : Nat) (l : List Pending) : Bool :=
  (takeFirst (isTranscribingFor sid) l).isSome

/-- Is there an `onstop` pending entry for session `sid`. -/
def hasOnstop (sid : Nat) (l : List Pending) : Bool :=
  (takeFirst (isOnstopFor sid) l).isSome

/-- One labelled step of the component: the state change performed by
the given user action or callback delivery, together with the network
requests it issues.  Guards mirror both the handlers' own checks and the
conditional rendering / `disabled` attributes of the page (an action
whose button is not rendered or is disabled leaves the state
unchanged). -/
def step (s : AppState) : Action → AppState × List Event
  -- handleStartRecording, getUserMedia resolves.  The record button is
  -- rendered only while recordingState is 'idle' or 'stopped' (and the
  -- handler itself returns when already 'recording').  The handler sets
  -- processingStage to 'idle' and clears isCancelledRef before awaiting
  -- the device, then installs fresh chunk storage and a new recorder
  -- whose onstop closure captures the current selectedLanguage.
  | .startOk =>
    if s.recordingState = .idle ∨ s.recordingState = .stopped then
      ({ s with processingStage := .idle,
                isCancelled := false,
                recorder := some ⟨s.nextSid, s.selectedLanguage, true⟩,
                audioChunks := [],
                recordingState := .recording,
                nextSid := s.nextSid + 1 }, [])
    else (s, [])
  -- handleStartRecording, getUserMedia rejects: the stage was set to
  -- 'idle' and the flag cleared before the await; the catch sets the
  -- stage to 'error'.  Recorder and chunks are untouched.
  | .startFail =>
    if s.recordingState = .idle ∨ s.recordingState = .stopped then
      ({ s with processingStage := .error, isCancelled := false }, [])
    else (s, [])
  -- handlePauseRecording: guarded on a live recorder and 'recording'.
  | .pause =>
    match s.recorder with
    | some _ =>
      if s.recordingState = .recording then
        ({ s with recordingState := .paused }, [])
      else (s, [])
    | none => (s, [])
  -- handleResumeRecording: guarded on a live recorder and 'paused'.
  | .resume =>
    match s.recorder with
    | some _ =>
      if s.recordingState = .paused then
        ({ s with recordingState := .recording }, [])
      else (s, [])
    | none => (s, [])
  -- handleStopRecording: calls mediaRecorder.stop(), which makes the
  -- recorder inactive and queues its onstop callback.  It does NOT
  -- change recordingState.
  | .stopBtn =>
    match s.recorder with
    | some r =>
      if (s.recordingState = .recording ∨ s.recordingState = .paused)
          ∧ r.active = true then
        ({ s with recorder := some { r with active := false },
                  pending := s.pending ++ [.onstop r.sid r.lang] }, [])
      else (s, [])
    | none => (s, [])
  -- handleCancelRecording: rendered only while 'recording' or 'paused'.
  -- If a recorder exists it sets isCancelledRef, stops the tracks and
  -- stops the recorder (queueing its onstop) when it is not inactive;
  -- afterwards it always resets recordingState, processingStage and the
  -- chunk list.  The text buffers and the cursor ref are untouched.
  | .cancel =>
    if s.recordingState = .recording ∨ s.recordingState = .paused then
      match s.recorder with
      | some r =>
        ({ s with isCancelled := true,
                  recorder := some { r with active := false },
                  pending := if r.active then s.pending ++ [.onstop r.sid r.lang]
                             else s.pending,
                  recordingState := .idle,
                  processingStage := .idle,
                  audioChunks := [] }, [])
      | none =>
        ({ s with recordingState := .idle,
                  processingStage := .idle,
                  audioChunks := [] }, [])
    else (s, [])
  -- ondataavailable: pushes a chunk while the recorder is live and
  -- recording (pause suspends accumulation).
  | .dataAvail size =>
    match s.recorder with
    | some r =>
      if r.active = true ∧ s.recordingState = .recording then
        ({ s with audioChunks := s.audioChunks ++ [size] }, [])
      else (s, [])
    | none => (s, [])
  -- The recorder's onstop callback fires.  It first checks
  -- isCancelledRef: if set it clears the flag and returns without
  -- building a payload.  Otherwise it builds the Blob from the chunk
  -- list as it is NOW (the ref is read at fire time); an empty blob
  -- resets recordingState to 'idle' and returns; a non-empty blob sets
  -- recordingState to 'stopped' and starts a FileReader whose onloadend
  -- is queued.
  | .fireOnstop sid =>
    match takeFirst (isOnstopFor sid) s.pending with
    | some (.onstop _ lang, rest) =>
      if s.isCancelled then
        ({ s with isCancelled := false, pending := rest }, [])
      else if chunkSum s.audioChunks = 0 then
        ({ s with recordingState := .idle, pending := rest }, [])
      else
        ({ s with recordingState := .stopped,
                  pending := rest ++ [.reader sid (chunkSum s.audioChunks) lang] }, [])
    | _ => (s, [])
  -- FileReader.onloadend: sets processingStage to 'transcribing' and
  -- issues the transcribeAudio request with the captured language.
  | .fireReader sid =>
    match takeFirst (isReaderFor sid) s.pending with
    | some (.reader _ size lang, rest) =>
      ({ s with processingStage := .transcribing,
                pending := rest ++ [.transcribing sid lang] },
       [.transcribeReq sid size lang])
    | _ => (s, [])
  -- transcribeAudio resolves: the functional updater merges the result
  -- into the buffer at the cursor ref read at merge time, the queued
  -- setTimeout republishes the collapsed cursor into the ref, and the
  -- stage becomes 'success'.  There is no check tying the result to the
  -- current session.
  | .resolveTranscribe sid result =>
    match takeFirst (isTranscribingFor sid) s.pending with
    | some (.transcribing _ _, rest) =>
      let m := mergeTranscription s.transcription s.cursor result
      ({ s with transcription := m.newText,
                cursor := m.newCursor,
                processingStage := .success,
                pending := rest }, [])
    | _ => (s, [])
  -- transcribeAudio rejects: stage 'error', buffer untouched.
  | .failTranscribe sid =>
    match takeFirst (isTranscribingFor sid) s.pending with
    | some (.transcribing _ _, rest) =>
      ({ s with processingStage := .error, pending := rest }, [])
    | _ => (s, [])
  -- handleFormatText: returns at once when the transcription buffer is
  -- empty (the button is also disabled then, and while loading);
  -- otherwise sets stage 'formatting' and issues the formatText request
  -- with the current buffer, style and language.
  | .formatBtn =>
    if s.transcription = [] then (s, [])
    else if s.processingStage = .transcribing ∨ s.processingStage = .formatting then
      (s, [])
    else
      ({ s with processingStage := .formatting,
                pending := s.pending
                  ++ [.formatting s.transcription s.selectedStyle s.selectedLanguage] },
       [.formatReq s.transcription s.selectedStyle s.selectedLanguage])
  -- formatText resolves: the formatted buffer is replaced wholesale.
  | .resolveFormat result =>
    match takeFirst isFormattingP s.pending with
    | some (_, rest) =>
      ({ s with formattedText := result,
                processingStage := .success,
                pending := rest }, [])
    | none => (s, [])
  -- formatText rejects: stage 'error', formatted buffer untouched.
  | .failFormat =>
    match takeFirst isFormattingP s.pending with
    | some (_, rest) =>
      ({ s with processingStage := .error, pending := rest }, [])
    | none => (s, [])
  -- resetState (button disabled while loading): stops the tracks, nulls
  -- the recorder ref, clears chunks and both buffers, resets both state
  -- enums and both selections.  It does NOT reset the cursor ref.
  | .reset =>
    if s.processingStage = .transcribing ∨ s.processingStage = .formatting then
      (s, [])
    else
      ({ s with recorder := none,
                audioChunks := [],
                recordingState := .idle,
                processingStage := .idle,
                transcription := [],
                formattedText := [],
                selectedStyle := defaultStyle,
                selectedLanguage := defaultLang }, [])
  -- handleTranscriptionChange: the textarea is disabled while recording
  -- or loading; otherwise the buffer and the cursor ref follow the DOM.
  | .edit text selStart selEnd =>
    if (s.recordingState = .recording ∨ s.recordingState = .paused)
        ∨ s.processingStage = .transcribing ∨ s.processingStage = .formatting then
      (s, [])
    else
      ({ s with transcription := text, cursor := ⟨selStart, selEnd⟩ }, [])
  -- handleTranscriptionSelect: records the selection range only.
  | .select selStart selEnd =>
    if (s.recordingState = .recording ∨ s.recordingState = .paused)
        ∨ s.processingStage = .transcribing ∨ s.processingStage = .formatting then
      (s, [])
    else
      ({ s with cursor := ⟨selStart, selEnd⟩ }, [])
  -- The formatted-text textarea's onChange (disabled while loading).
  | .editFormatted text =>
    if s.processingStage = .transcribing ∨ s.processingStage = .formatting then
      (s, [])
    else
      ({ s with formattedText := text }, [])
  -- The language-modal trigger button: always rendered in the header
  -- and never disabled.
  | .openLangModal => ({ s with langModalOpen := true }, [])
  -- handleLanguageSelect from inside the open modal: sets the language
  -- and closes the modal, with no guard on the recording state.
  | .selectLang l =>
    if s.langModalOpen then
      ({ s with selectedLanguage := l, langModalOpen := false }, [])
    else (s, [])
  -- The EN / FA quick buttons, rendered only while 'idle' or 'stopped'.
  | .quickLang l =>
    if s.recordingState = .idle ∨ s.recordingState = .stopped then
      ({ s with selectedLanguage := l }, [])
    else (s, [])
  -- The style Select (disabled while loading or with an empty buffer).
  | .setStyle st =>
    if s.transcription = []
        ∨ s.processingStage = .transcribing ∨ s.processingStage = .formatting then
      (s, [])
    else
      ({ s with selectedStyle := st }, [])

/-- Run a list of actions from a state, accumulating the emitted
requests. -/
def run (s : AppState) : List Action → AppState × List Event
  | [] => (s, [])
  | a :: as =>
    let p := step s a
    let q := run p.1 as
    (q.1, p.2 ++ q.2)

/-- The initial state of the component: all hooks at their initial
values, no recorder, empty queue. -/
def initState : AppState where
  recordingState := .idle
  processingStage := .idle
  selectedLanguage := defaultLang
  transcription := []
  formattedText := []
  selectedStyle := defaultStyle
  langModalOpen := false
  recorder := none
  audioChunks := []
  isCancelled := false
  cursor := ⟨0, 0⟩
  pending := []
  nextSid := 1

/-- Well-formedness of the data an action carries, guaranteed by the
DOM: a textarea's selection range always lies within its value. -/
def validAction (s : AppState) : Action → Prop
  | .edit text selStart selEnd => selStart ≤ selEnd ∧ selEnd ≤ text.length
  | .select selStart selEnd => selStart ≤ selEnd ∧ selEnd ≤ s.transcription.length
  | _ => True

/-- The cursor invariant of the specification:
`start ≤ end ≤ length (transcription buffer)`. -/
def cursorOK (s : AppState) : Prop :=
  s.cursor.start ≤ s.cursor.endPos ∧ s.cursor.endPos ≤ s.transcription.length

instance (s : AppState) (a : Action) : Decidable (validAction s a) := by
  cases a <;> simp only [validAction] <;> infer_instance

instance (s : AppState) : Decidable (cursorOK s) := by
  unfold cursorOK; infer_instance

/-- A capture session `i` that can no longer produce a transcription
request: no chunks are buffered, no recorder is live, and the only
queued callbacks belonging to session `i` are `onstop` callbacks (which
find an empty chunk list or the cancellation flag when they fire). -/
def quiet (i : Nat) (s : AppState) : Prop :=
  s.audioChunks = []
    ∧ (∀ r, s.recorder = some r → r.active = false)
    ∧ (∀ p ∈ s.pending, pendSid p = some i → isOnstopP p = true)

/-- The cancel-then-restart race: record (session 1), buffer a chunk,
stop, let the onstop and the FileReader fire so a transcription for
session 1 is in flight, then start a new recording (session 2) and
cancel it. -/
def raceTrace : List Action :=
  [.startOk, .dataAvail 5, .stopBtn, .fireOnstop 1, .fireReader 1,
   .startOk, .cancel]

/-- Two complete dictations from the initial (empty-buffer) state: each
records one chunk, stops, lets the onstop and reader fire, and receives
the given transcription result. -/
def twoDictations (r1 r2 : List Char) : List Action :=
  [.startOk, .dataAvail 1, .stopBtn, .fireOnstop 1, .fireReader 1,
   .resolveTranscribe 1 r1,
   .startOk, .dataAvail 1, .stopBtn, .fireOnstop 2, .fireReader 2,
   .resolveTranscribe 2 r2]

/-- State with buffer "Hello world", cursor {5,5}, and a transcription
in flight, reached by typing the text, placing the cursor, and running
one capture up to the dispatched request. -/
def helloState : AppState :=
  (run initState
    [.edit "Hello world".toList 5 5, .startOk, .dataAvail 1, .stopBtn,
     .fireOnstop 1, .fireReader 1]).1

/-- Trace typing "a\n" with the cursor at its end, then one capture up
to the dispatched request. -/
def newlinePrefix : List Action :=
  [.edit "a\n".toList 2 2, .startOk, .dataAvail 1, .stopBtn,
   .fireOnstop 1, .fireReader 1]

/-- One capture from the initial state up to the dispatched request,
leaving the buffer empty with a transcription in flight. -/
def emptyBufState : AppState :=
  (run initState
    [.startOk, .dataAvail 1, .stopBtn, .fireOnstop 1, .fireReader 1]).1

/-- Start recording, change the language through the always-enabled
modal mid-recording, then finish the capture up to the dispatched
request. -/
def langLockTrace (l : Nat) : List Action :=
  [.startOk, .openLangModal, .selectLang l, .dataAvail 1, .stopBtn,
   .fireOnstop 1, .fireReader 1]

/-- An entry returned by `takeFirst` satisfies the predicate, was in the
queue, and the remaining queue is a subcollection of the original. -/
theorem takeFirst_sat {f : Pending → Bool} {l : List Pending} {p : Pending}
    {rest : List Pending} (h : takeFirst f l = some (p, rest)) :
    f p = true ∧ p ∈ l ∧ ∀ q ∈ rest, q ∈ l := by
  induction l generalizing p rest with
  | nil => simp [takeFirst] at h
  | cons a l ih =>
    rw [takeFirst] at h
    by_cases hfa : f a
    · rw [if_pos hfa] at h
      injection h with h'
      injection h' with h1 h2
      subst h1; subst h2
      exact ⟨hfa, by simp, fun q hq => by simp [hq]⟩
    · rw [if_neg hfa] at h
      cases hrec : takeFirst f l with
      | none => rw [hrec] at h; exact absurd h (by simp)
      | some pr =>
        obtain ⟨q', rest'⟩ := pr
        rw [hrec] at h
        injection h with h'
        injection h' with h1 h2
        subst h1; subst h2
        obtain ⟨h1, h2, h3⟩ := ih hrec
        refine ⟨h1, by simp [h2], ?_⟩
        intro q hq
        rcases List.mem_cons.1 hq with hc | hc
        · simp [hc]
        · simp [h3 q hc]

/-- `takeFirst` finds nothing when no entry satisfies the predicate. -/
theorem takeFirst_none {f : Pending → Bool} {l : List Pending}
    (h : ∀ p ∈ l, f p = false) : takeFirst f l = none := by
  induction l with
  | nil => rfl
  | cons a l ih =>
    rw [takeFirst]
    have ha := h a (by simp)
    simp only [ha, Bool.false_eq_true, if_false]
    rw [ih fun p hp => h p (by simp [hp])]

/-- A positive `hasOnstop` exposes the concrete `onstop` entry that
`fireOnstop` will consume. -/
theorem hasOnstop_shape {sid : Nat} {l : List Pending}
    (h : hasOnstop sid l = true) :
    ∃ lang rest, takeFirst (isOnstopFor sid) l = some (.onstop sid lang, rest) := by
  unfold hasOnstop at h
  cases hq : takeFirst (isOnstopFor sid) l with
  | none => rw [hq] at h; simp at h
  | some pr =>
    obtain ⟨p, rest⟩ := pr
    have hf := (takeFirst_sat hq).1
    cases p with
    | onstop j lg =>
      have hj : j = sid := by simpa [isOnstopFor] using hf
      subst hj
      exact ⟨lg, rest, rfl⟩
    | reader j sz lg => simp [isOnstopFor] at hf
    | transcribing j lg => simp [isOnstopFor] at hf
    | formatting t st lg => simp [isOnstopFor] at hf

/-- A positive `hasTranscribing` exposes the concrete in-flight entry
that `resolveTranscribe` will consume. -/
theorem hasTranscribing_shape {sid : Nat} {l : List Pending}
    (h : hasTranscribing sid l = true) :
    ∃ lang rest,
      takeFirst (isTranscribingFor sid) l = some (.transcribing sid lang, rest) := by
  unfold hasTranscribing at h
  cases hq : takeFirst (isTranscribingFor sid) l with
  | none => rw [hq] at h; simp at h
  | some pr =>
    obtain ⟨p, rest⟩ := pr
    have hf := (takeFirst_sat hq).1
    cases p with
    | onstop j lg => simp [isTranscribingFor] at hf
    | reader j sz lg => simp [isTranscribingFor] at hf
    | transcribing j lg =>
      have hj : j = sid := by simpa [isTranscribingFor] using hf
      subst hj
      exact ⟨lg, rest, rfl⟩
    | formatting t st lg => simp [isTranscribingFor] at hf

/-- Transport of recorder inactivity through an `Option` equation. -/
theorem recorder_clause {r : Recorder} (h : r.active = false) :
    ∀ r' : Recorder, some r = some r' → r'.active = false := by
  intro r' h'
  injection h' with he
  rw [← he]
  exact h

/-- Any single step other than a successful start preserves quietness of
session `i` and emits no transcription request for session `i`. -/
theorem quiet_step (i : Nat) (s : AppState) (a : Action)
    (ha : a ≠ Action.startOk) (h : quiet i s) :
    quiet i (step s a).1 ∧ ∀ e ∈ (step s a).2, eventTranscribeSid e ≠ some i := by
  obtain ⟨h1, h2, h3⟩ := h
  cases a with
  | startOk => exact absurd rfl ha
  | startFail =>
    simp only [step]
    split <;> exact ⟨⟨h1, h2, h3⟩, by simp⟩
  | pause =>
    simp only [step]
    split
    · split <;> exact ⟨⟨h1, h2, h3⟩, by simp⟩
    · exact ⟨⟨h1, h2, h3⟩, by simp⟩
  | resume =>
    simp only [step]
    split
    · split <;> exact ⟨⟨h1, h2, h3⟩, by simp⟩
    · exact ⟨⟨h1, h2, h3⟩, by simp⟩
  | stopBtn =>
    simp only [step]
    split
    · rename_i r heq
      have hact : r.active = false := h2 r heq
      rw [if_neg (by simp [hact])]
      exact ⟨⟨h1, h2, h3⟩, by simp⟩
    · exact ⟨⟨h1, h2, h3⟩, by simp⟩
  | cancel =>
    simp only [step]
    split
    · split
      · rename_i r heq
        have hact : r.active = false := h2 r heq
        rw [if_neg (by simp [hact])]
        exact ⟨⟨rfl, recorder_clause rfl, h3⟩, by simp⟩
      · exact ⟨⟨rfl, h2, h3⟩, by simp⟩
    · exact ⟨⟨h1, h2, h3⟩, by simp⟩
  | dataAvail size =>
    simp only [step]
    split
    · rename_i r heq
      have hact : r.active = false := h2 r heq
      rw [if_neg (by simp [hact])]
      exact ⟨⟨h1, h2, h3⟩, by simp⟩
    · exact ⟨⟨h1, h2, h3⟩, by simp⟩
  | fireOnstop sid =>
    simp only [step]
    split
    · rename_i j lg rest heq
      obtain ⟨hfp, hmem, hsub⟩ := takeFirst_sat heq
      by_cases hc : s.isCancelled
      · rw [if_pos hc]
        exact ⟨⟨h1, h2, fun q hqm hsid => h3 q (hsub q hqm) hsid⟩, by simp⟩
      · rw [if_neg hc, if_pos (by rw [h1]; rfl)]
        exact ⟨⟨h1, h2, fun q hqm hsid => h3 q (hsub q hqm) hsid⟩, by simp⟩
    · exact ⟨⟨h1, h2, h3⟩, by simp⟩
  | fireReader sid =>
    simp only [step]
    split
    · rename_i j sz lg rest heq
      obtain ⟨hfp, hmem, hsub⟩ := takeFirst_sat heq
      have hj : j = sid := by simpa [isReaderFor] using hfp
      by_cases hsi : sid = i
      · exact absurd (h3 _ hmem (by simp [pendSid, hj, hsi]))
          (by simp [isOnstopP])
      · refine ⟨⟨h1, h2, ?_⟩, ?_⟩
        · intro q hqm hsid
          rcases List.mem_append.1 hqm with hm | hm
          · exact h3 q (hsub q hm) hsid
          · simp only [List.mem_singleton] at hm
            subst hm
            simp only [pendSid, Option.some.injEq] at hsid
            exact absurd hsid hsi
        · intro e he
          simp only [List.mem_singleton] at he
          subst he
          simp only [eventTranscribeSid, ne_eq, Option.some.injEq]
          exact hsi
    · exact ⟨⟨h1, h2, h3⟩, by simp⟩
  | resolveTranscribe sid result =>
    simp only [step]
    split
    · rename_i j lg rest heq
      obtain ⟨hfp, hmem, hsub⟩ := takeFirst_sat heq
      exact ⟨⟨h1, h2, fun q hqm hsid => h3 q (hsub q hqm) hsid⟩, by simp⟩
    · exact ⟨⟨h1, h2, h3⟩, by simp⟩
  | failTranscribe sid =>
    simp only [step]
    split
    · rename_i j lg rest heq
      obtain ⟨hfp, hmem, hsub⟩ := takeFirst_sat heq
      exact ⟨⟨h1, h2, fun q hqm hsid => h3 q (hsub q hqm) hsid⟩, by simp⟩
    · exact ⟨⟨h1, h2, h3⟩, by simp⟩
  | formatBtn =>
    simp only [step]
    split
    · exact ⟨⟨h1, h2, h3⟩, by simp⟩
    · split
      · exact ⟨⟨h1, h2, h3⟩, by simp⟩
      · refine ⟨⟨h1, h2, ?_⟩, ?_⟩
        · intro q hqm hsid
          rcases List.mem_append.1 hqm with hm | hm
          · exact h3 q hm hsid
          · simp only [List.mem_singleton] at hm
            subst hm
            simp [pendSid] at hsid
        · intro e he
          simp only [List.mem_singleton] at he
          subst he
          simp [eventTranscribeSid]
  | resolveFormat result =>
    simp only [step]
    split
    · rename_i p rest heq
      obtain ⟨hfp, hmem, hsub⟩ := takeFirst_sat heq
      exact ⟨⟨h1, h2, fun q hqm hsid => h3 q (hsub q hqm) hsid⟩, by simp⟩
    · exact ⟨⟨h1, h2, h3⟩, by simp⟩
  | failFormat =>
    simp only [step]
    split
    · rename_i p rest heq
      obtain ⟨hfp, hmem, hsub⟩ := takeFirst_sat heq
      exact ⟨⟨h1, h2, fun q hqm hsid => h3 q (hsub q hqm) hsid⟩, by simp⟩
    · exact ⟨⟨h1, h2, h3⟩, by simp⟩
  | reset =>
    simp only [step]
    split
    · exact ⟨⟨h1, h2, h3⟩, by simp⟩
    · exact ⟨⟨rfl, fun r hr => by simp at hr, h3⟩, by simp⟩
  | edit text selStart selEnd =>
    simp only [step]
    split <;> exact ⟨⟨h1, h2, h3⟩, by simp⟩
  | select selStart selEnd =>
    simp only [step]
    split <;> exact ⟨⟨h1, h2, h3⟩, by simp⟩
  | editFormatted text =>
    simp only [step]
    split <;> exact ⟨⟨h1, h2, h3⟩, by simp⟩
  | openLangModal =>
    simp only [step]
    exact ⟨⟨h1, h2, h3⟩, by simp⟩
  | selectLang l =>
    simp only [step]
    split <;> exact ⟨⟨h1, h2, h3⟩, by simp⟩
  | quickLang l =>
    simp only [step]
    split <;> exact ⟨⟨h1, h2, h3⟩, by simp⟩
  | setStyle st =>
    simp only [step]
    split <;> exact ⟨⟨h1, h2, h3⟩, by simp⟩

/-- Running any start-free action sequence from a quiet state emits no
transcription request for session `i`. -/
theorem quiet_run {i : Nat} {s : AppState} {acts : List Action}
    (hq : quiet i s) (hna : ∀ a ∈ acts, a ≠ Action.startOk) :
    quiet i (run s acts).1
      ∧ ∀ e ∈ (run s acts).2, eventTranscribeSid e ≠ some i := by
  induction acts generalizing s with
  | nil => exact ⟨hq, by simp [run]⟩
  | cons a as ih =>
    have hstep := quiet_step i s a (hna a (by simp)) hq
    have hrest := ih hstep.1 fun b hb => hna b (by simp [hb])
    refine ⟨hrest.1, ?_⟩
    intro e he
    rw [run] at he
    simp only [List.mem_append] at he
    rcases he with hm | hm
    · exact hstep.2 e hm
    · exact hrest.2 e hm

/-- Merging into an empty buffer with a collapsed cursor at 0 yields the
bare result and a collapsed cursor at its length. -/
theorem merge_empty (r : List Char) :
    mergeTranscription [] ⟨0, 0⟩ r = ⟨r, ⟨r.length, r.length⟩⟩ := by
  simp [mergeTranscription, mergeSeparator, sepNeeded]

/-- Merging a second result at the collapsed cursor left at the end of a
non-empty buffer that does not end in a space appends a single space and
the result. -/
theorem merge_after (r1 r2 : List Char) (h1 : 0 < r1.length)
    (h2 : ¬ r1.get? (r1.length - 1) = some ' ') :
    mergeTranscription r1 ⟨r1.length, r1.length⟩ r2
      = ⟨r1 ++ ' ' :: r2, ⟨r1.length + r2.length + 1, r1.length + r2.length + 1⟩⟩ := by
  have hsep : sepNeeded r1 r1.length = true := by
    simp only [sepNeeded, Bool.and_eq_true, decide_eq_true_eq, Bool.not_eq_true',
      decide_eq_false_iff_not]
    exact ⟨⟨h1, h1⟩, h2⟩
  simp [mergeTranscription, mergeSeparator, hsep, List.take_length, List.drop_length]

/-- C1: After cancel() is invoked from the Recording or Paused state, no
transcription request is ever issued for that capture session.  First
conjunct: a stop callback that observes the cancellation flag no-ops
(emits nothing, leaves buffer, stage and recording state unchanged, and
only removes queued work) instead of building a payload.  Second
conjunct: from the moment of cancellation, as long as no new recording
is started (the spec's cooperative ordering runs the pending stop
callback before anything else), no run of the system ever emits a
transcription request for the cancelled session, regardless of how much
audio was buffered. -/
theorem C1_cancel_no_transcription :
    (∀ (s : AppState) (sid : Nat), s.isCancelled = true →
        (step s (.fireOnstop sid)).2 = []
          ∧ (step s (.fireOnstop sid)).1.transcription = s.transcription
          ∧ (step s (.fireOnstop sid)).1.processingStage = s.processingStage
          ∧ (step s (.fireOnstop sid)).1.recordingState = s.recordingState
          ∧ ∀ p ∈ (step s (.fireOnstop sid)).1.pending, p ∈ s.pending)
      ∧ (∀ (s : AppState) (r : Recorder) (acts : List Action),
          s.recorder = some r →
          (s.recordingState = .recording ∨ s.recordingState = .paused) →
          (∀ p ∈ s.pending, pendSid p = some r.sid → isOnstopP p = true) →
          (∀ a ∈ acts, a ≠ Action.startOk) →
          ∀ e ∈ (run (step s .cancel).1 acts).2,
            eventTranscribeSid e ≠ some r.sid) := by
  constructor
  · intro s sid hc
    simp only [step]
    split
    · rename_i j lg rest heq
      rw [if_pos hc]
      exact ⟨rfl, rfl, rfl, rfl, fun p hp => (takeFirst_sat heq).2.2 p hp⟩
    · exact ⟨rfl, rfl, rfl, rfl, fun p hp => hp⟩
  · intro s r acts hrec hrs h3 hna
    have hquiet : quiet r.sid (step s .cancel).1 := by
      simp only [step]
      rw [if_pos hrs]
      split
      · rename_i r' heq
        rw [hrec] at heq
        injection heq with he
        subst he
        refine ⟨rfl, recorder_clause rfl, ?_⟩
        intro p hp hsid
        by_cases hact : r.active
        · rw [if_pos hact] at hp
          rcases List.mem_append.1 hp with hm | hm
          · exact h3 p hm hsid
          · simp only [List.mem_singleton] at hm
            subst hm
            rfl
        · rw [if_neg hact] at hp
          exact h3 p hp hsid
      · rename_i heq
        rw [hrec] at heq
        simp at heq
    exact (quiet_run hquiet hna).2

/-- Witness for C1: record with one buffered chunk, cancel, then let the
stop callback, the reader, and a resolution attempt all fire — no
transcription request for session 1 is emitted. -/
theorem C1_cancel_no_transcription_witness :
    (run initState [.startOk, .dataAvail 3]).1.recorder
        = some ⟨1, defaultLang, true⟩
      ∧ (run initState [.startOk, .dataAvail 3]).1.recordingState = .recording
      ∧ ∀ e ∈ (run (step (run initState [.startOk, .dataAvail 3]).1 .cancel).1
            [.fireOnstop 1, .fireReader 1,
             .resolveTranscribe 1 "x".toList]).2,
          eventTranscribeSid e ≠ some 1 := by
  refine ⟨by decide, by decide, ?_⟩
  exact C1_cancel_no_transcription.2 (run initState [.startOk, .dataAvail 3]).1
    ⟨1, defaultLang, true⟩
    [.fireOnstop 1, .fireReader 1, .resolveTranscribe 1 "x".toList]
    (by decide) (by decide) (by decide) (by decide)

/-- C2: On a successful transcription result, the merged buffer equals
buffer[0:start] ++ separator ++ result ++ buffer[end:] for the cursor
{start, end} tracked at merge time, and the new cursor is collapsed at
start + len(separator) + len(result) and published back (the cursor ref)
for the next insertion, with the stage set to success. -/
theorem C2_merge_formula (s : AppState) (sid : Nat) (res : List Char)
    (h : hasTranscribing sid s.pending = true) :
    (step s (.resolveTranscribe sid res)).1.transcription
        = s.transcription.take s.cursor.start
          ++ mergeSeparator s.transcription s.cursor.start
          ++ res ++ s.transcription.drop s.cursor.endPos
      ∧ (step s (.resolveTranscribe sid res)).1.cursor.start
          = s.cursor.start
            + (mergeSeparator s.transcription s.cursor.start).length + res.length
      ∧ (step s (.resolveTranscribe sid res)).1.cursor.endPos
          = (step s (.resolveTranscribe sid res)).1.cursor.start
      ∧ (step s (.resolveTranscribe sid res)).1.processingStage = .success := by
  obtain ⟨lang, rest, heq⟩ := hasTranscribing_shape h
  have hstep : step s (.resolveTranscribe sid res)
      = ({ s with
            transcription := (mergeTranscription s.transcription s.cursor res).newText,
            cursor := (mergeTranscription s.transcription s.cursor res).newCursor,
            processingStage := .success,
            pending := rest }, []) := by
    simp only [step, heq]
  rw [hstep]
  refine ⟨rfl, ?_, rfl, rfl⟩
  simp only [mergeTranscription]
  omega

/-- Witness for C2 at the spec's example: buffer "Hello world", cursor
{5,5}, result "there" gives "Hello there world" with cursor {11,11}. -/
theorem C2_merge_formula_witness :
    hasTranscribing 1 helloState.pending = true
      ∧ (step helloState (.resolveTranscribe 1 "there".toList)).1.transcription
          = "Hello there world".toList
      ∧ (step helloState (.resolveTranscribe 1 "there".toList)).1.cursor.start = 11
      ∧ (step helloState (.resolveTranscribe 1 "there".toList)).1.cursor.endPos = 11 := by
  have h := C2_merge_formula helloState 1 "there".toList (by decide)
  have hs : (step helloState (.resolveTranscribe 1 "there".toList)).1.cursor.start
      = 11 := h.2.1.trans (by decide)
  exact ⟨by decide, h.1.trans (by decide), hs, h.2.2.1.trans hs⟩

/-- C9: Invoking the formatting operation with an empty transcription
buffer is rejected before any network call: the step is a complete
no-op — no event is emitted and the state (stage and both buffers
included) is unchanged. -/
theorem C9_format_empty_rejected (s : AppState) (h : s.transcription = []) :
    step s .formatBtn = (s, []) := by
  simp only [step]
  rw [if_pos h]

/-- Witness for C9 at the initial state. -/
theorem C9_format_empty_rejected_witness :
    initState.transcription = [] ∧ step initState .formatBtn = (initState, []) :=
  ⟨rfl, C9_format_empty_rejected initState rfl⟩

/-- C10: cancel() leaves both text buffers (and the tracked cursor, the
language and the style) unchanged; only the recording state, the
processing stage and the accumulated chunks are reset. -/
theorem C10_cancel_preserves_buffers (s : AppState)
    (h : s.recordingState = .recording ∨ s.recordingState = .paused) :
    (step s .cancel).1.transcription = s.transcription
      ∧ (step s .cancel).1.formattedText = s.formattedText
      ∧ (step s .cancel).1.cursor = s.cursor
      ∧ (step s .cancel).1.selectedLanguage = s.selectedLanguage
      ∧ (step s .cancel).1.selectedStyle = s.selectedStyle
      ∧ (step s .cancel).1.recordingState = .idle
      ∧ (step s .cancel).1.processingStage = .idle
      ∧ (step s .cancel).1.audioChunks = [] := by
  simp only [step]
  rw [if_pos h]
  cases hr : s.recorder with
  | none => exact ⟨rfl, rfl, rfl, rfl, rfl, rfl, rfl, rfl⟩
  | some r => exact ⟨rfl, rfl, rfl, rfl, rfl, rfl, rfl, rfl⟩

/-- Witness for C10: cancelling a live recording keeps the buffers. -/
theorem C10_cancel_preserves_buffers_witness :
    (run initState [.startOk]).1.recordingState = .recording
      ∧ (step (run initState [.startOk]).1 .cancel).1.transcription
          = (run initState [.startOk]).1.transcription
      ∧ (step (run initState [.startOk]).1 .cancel).1.formattedText
          = (run initState [.startOk]).1.formattedText
      ∧ (step (run initState [.startOk]).1 .cancel).1.recordingState = .idle := by
  have h := C10_cancel_preserves_buffers (run initState [.startOk]).1
    (Or.inl (by decide))
  exact ⟨by decide, h.1, h.2.1, h.2.2.2.2.2.1⟩

/-- C3 counterexample: the claim's separator rule says no separator is
inserted when the character preceding `start` is whitespace, but the
code only compares against the space character.  Typing "a\n" with the
cursor at its end and dictating "x" inserts a separator even though the
newline is whitespace: the merge yields "a\n x", not "a\nx". -/
theorem C3_separator_counterexample :
    (run initState newlinePrefix).1.transcription = "a\n".toList
      ∧ (run initState newlinePrefix).1.cursor = ⟨2, 2⟩
      ∧ Char.isWhitespace '\n' = true
      ∧ specSepNeeded "a\n".toList 2 = false
      ∧ (run initState
            (newlinePrefix ++ [.resolveTranscribe 1 "x".toList])).1.transcription
          = "a\n x".toList
      ∧ "a\n x".toList ≠ "a\nx".toList := by decide

/-- C3 amended: the merge inserts a single space separator exactly when
the buffer is non-empty, start > 0, and the character immediately
preceding `start` is not a space character (U+0020) — other whitespace
such as a newline still triggers the separator; merging into an empty
buffer inserts no separator. -/
theorem C3_separator_rule (s : AppState) (sid : Nat) (res : List Char)
    (h : hasTranscribing sid s.pending = true) :
    (step s (.resolveTranscribe sid res)).1.transcription
        = s.transcription.take s.cursor.start
          ++ (if 0 < s.transcription.length ∧ 0 < s.cursor.start
                 ∧ ¬ s.transcription.get? (s.cursor.start - 1) = some ' '
              then [' '] else [])
          ++ res ++ s.transcription.drop s.cursor.endPos
      ∧ (step s (.resolveTranscribe sid res)).1.cursor.start
          = s.cursor.start + res.length
            + (if 0 < s.transcription.length ∧ 0 < s.cursor.start
                  ∧ ¬ s.transcription.get? (s.cursor.start - 1) = some ' '
               then 1 else 0)
      ∧ (step s (.resolveTranscribe sid res)).1.cursor.endPos
          = (step s (.resolveTranscribe sid res)).1.cursor.start := by
  obtain ⟨lang, rest, heq⟩ := hasTranscribing_shape h
  have hstep : step s (.resolveTranscribe sid res)
      = ({ s with
            transcription := (mergeTranscription s.transcription s.cursor res).newText,
            cursor := (mergeTranscription s.transcription s.cursor res).newCursor,
            processingStage := .success,
            pending := rest }, []) := by
    simp only [step, heq]
  rw [hstep]
  have hiff : sepNeeded s.transcription s.cursor.start = true
      ↔ (0 < s.transcription.length ∧ 0 < s.cursor.start
          ∧ ¬ s.transcription.get? (s.cursor.start - 1) = some ' ') := by
    simp only [sepNeeded, Bool.and_eq_true, decide_eq_true_eq, Bool.not_eq_true',
      decide_eq_false_iff_not, and_assoc]
  have hms : mergeSeparator s.transcription s.cursor.start
      = (if 0 < s.transcription.length ∧ 0 < s.cursor.start
            ∧ ¬ s.transcription.get? (s.cursor.start - 1) = some ' '
         then [' '] else []) := by
    by_cases hsep : sepNeeded s.transcription s.cursor.start = true
    · rw [mergeSeparator, if_pos hsep, if_pos (hiff.1 hsep)]
    · rw [mergeSeparator, if_neg hsep, if_neg ((not_congr hiff).1 hsep)]
  refine ⟨?_, ?_, rfl⟩
  · show (mergeTranscription s.transcription s.cursor res).newText = _
    rw [show (mergeTranscription s.transcription s.cursor res).newText
        = s.transcription.take s.cursor.start
          ++ mergeSeparator s.transcription s.cursor.start
          ++ res ++ s.transcription.drop s.cursor.endPos from rfl, hms]
  · show (mergeTranscription s.transcription s.cursor res).newCursor.start = _
    rw [show (mergeTranscription s.transcription s.cursor res).newCursor.start
        = s.cursor.start + res.length
          + (mergeSeparator s.transcription s.cursor.start).length from rfl, hms]
    by_cases hpp : 0 < s.transcription.length ∧ 0 < s.cursor.start
        ∧ ¬ s.transcription.get? (s.cursor.start - 1) = some ' '
    · rw [if_pos hpp, if_pos hpp]; rfl
    · rw [if_neg hpp, if_neg hpp]; rfl

/-- Witness for C3 (amended) at the spec's example: empty buffer and
result "Hi" give "Hi" with cursor {2,2} and no leading separator. -/
theorem C3_separator_rule_witness :
    hasTranscribing 1 emptyBufState.pending = true
      ∧ (step emptyBufState (.resolveTranscribe 1 "Hi".toList)).1.transcription
          = "Hi".toList
      ∧ (step emptyBufState (.resolveTranscribe 1 "Hi".toList)).1.cursor.start = 2
      ∧ (step emptyBufState (.resolveTranscribe 1 "Hi".toList)).1.cursor.endPos = 2 := by
  have h := C3_separator_rule emptyBufState 1 "Hi".toList (by decide)
  have hs : (step emptyBufState (.resolveTranscribe 1 "Hi".toList)).1.cursor.start
      = 2 := h.2.1.trans (by decide)
  exact ⟨by decide, h.1.trans (by decide), hs, h.2.2.trans hs⟩

/-- C4 counterexample: after the race trace (record session 1 to the
point of an in-flight transcription, then start and cancel session 2)
the current attempt is the cancelled session 2, yet resolving the stale
session-1 call still merges its result into the buffer and sets the
stage to success — no session or request identity is compared. -/
theorem C4_stale_result_counterexample :
    (run initState raceTrace).1.recorder = some ⟨2, defaultLang, false⟩
      ∧ (run initState raceTrace).1.isCancelled = true
      ∧ (run initState raceTrace).1.recordingState = .idle
      ∧ hasTranscribing 1 (run initState raceTrace).1.pending = true
      ∧ (run initState raceTrace).1.transcription = []
      ∧ (step (run initState raceTrace).1
            (.resolveTranscribe 1 "hi".toList)).1.transcription = "hi".toList
      ∧ (step (run initState raceTrace).1
            (.resolveTranscribe 1 "hi".toList)).1.processingStage = .success := by
  decide

/-- C4 amended: stale results are discarded only by the boolean
cancellation flag, checked by the stop callback before the request is
dispatched; once a transcription call is in flight, its resolution is
applied to the buffer unconditionally — in particular neither the
current recorder (session identity) nor the cancellation flag is
consulted at resolution time. -/
theorem C4_resolution_unconditional (s : AppState) (sid : Nat) (res : List Char)
    (h : hasTranscribing sid s.pending = true) :
    (step s (.resolveTranscribe sid res)).1.transcription
        = (mergeTranscription s.transcription s.cursor res).newText
      ∧ (step s (.resolveTranscribe sid res)).1.processingStage = .success
      ∧ ∀ (b : Bool) (orec : Option Recorder),
          (step { s with isCancelled := b, recorder := orec }
              (.resolveTranscribe sid res)).1.transcription
            = (mergeTranscription s.transcription s.cursor res).newText := by
  obtain ⟨lang, rest, heq⟩ := hasTranscribing_shape h
  refine ⟨?_, ?_, ?_⟩
  · simp only [step, heq]
  · simp only [step, heq]
  · intro b orec
    simp only [step, heq]

/-- Witness for C4 (amended): an in-flight result is applied to the
buffer no matter the recorder and flag at resolution time. -/
theorem C4_resolution_unconditional_witness :
    hasTranscribing 1 (run initState raceTrace).1.pending = true
      ∧ (step (run initState raceTrace).1
            (.resolveTranscribe 1 "ok".toList)).1.transcription
          = (mergeTranscription (run initState raceTrace).1.transcription
              (run initState raceTrace).1.cursor "ok".toList).newText := by
  have h := C4_resolution_unconditional (run initState raceTrace).1 1
    "ok".toList (by decide)
  exact ⟨by decide, h.1⟩

/-- C5: a stop that finalizes an empty payload (no cancellation flag,
zero total chunk size) returns the controller to Idle, leaves the
processing stage, both buffers and the cursor untouched, issues no
request, and only removes queued work. -/
theorem C5_empty_payload_idle (s : AppState) (sid : Nat)
    (hp : hasOnstop sid s.pending = true)
    (hc : s.isCancelled = false)
    (hz : chunkSum s.audioChunks = 0) :
    (step s (.fireOnstop sid)).1.recordingState = .idle
      ∧ (step s (.fireOnstop sid)).1.processingStage = s.processingStage
      ∧ (step s (.fireOnstop sid)).1.transcription = s.transcription
      ∧ (step s (.fireOnstop sid)).1.formattedText = s.formattedText
      ∧ (step s (.fireOnstop sid)).1.cursor = s.cursor
      ∧ (step s (.fireOnstop sid)).2 = []
      ∧ ∀ p ∈ (step s (.fireOnstop sid)).1.pending, p ∈ s.pending := by
  obtain ⟨lang, rest, heq⟩ := hasOnstop_shape hp
  have hstep : step s (.fireOnstop sid)
      = ({ s with recordingState := .idle, pending := rest }, []) := by
    simp only [step, heq]
    rw [if_neg (by simp [hc]), if_pos hz]
  rw [hstep]
  exact ⟨rfl, rfl, rfl, rfl, rfl, rfl,
    fun p hp2 => (takeFirst_sat heq).2.2 p hp2⟩

/-- Witness for C5: stopping immediately after start (no chunk ever
buffered) discards the session and returns to Idle. -/
theorem C5_empty_payload_idle_witness :
    hasOnstop 1 (run initState [.startOk, .stopBtn]).1.pending = true
      ∧ (run initState [.startOk, .stopBtn]).1.isCancelled = false
      ∧ chunkSum (run initState [.startOk, .stopBtn]).1.audioChunks = 0
      ∧ (step (run initState [.startOk, .stopBtn]).1 (.fireOnstop 1)).1.recordingState
          = .idle
      ∧ (step (run initState [.startOk, .stopBtn]).1 (.fireOnstop 1)).2 = [] := by
  have h := C5_empty_payload_idle (run initState [.startOk, .stopBtn]).1 1
    (by decide) (by decide) (by decide)
  exact ⟨by decide, by decide, by decide, h.1, h.2.2.2.2.2.1⟩

/-- C6 counterexample: two successful dictations into an initially empty
buffer whose first result ends in a space.  The merge suppresses the
separator (the preceding character is a space), so the final buffer is
"a b" and not the two results joined by a single space ("a  b"): the
resulting buffer is not `r1 ++ " " ++ r2` for every pair of results. -/
theorem C6_concat_counterexample :
    (run initState (twoDictations "a ".toList "b".toList)).1.transcription
        = "a b".toList
      ∧ (run initState (twoDictations "a ".toList "b".toList)).1.processingStage
          = .success
      ∧ "a b".toList ≠ "a ".toList ++ " ".toList ++ "b".toList := by decide

/-- C6 amended: for two sequential successful dictations into an
initially empty buffer whose first result is non-empty and does not end
in a space, the final buffer is the two results concatenated in order
separated by a single space, and the second result was inserted at the
collapsed cursor published by the first merge (position len(r1), so the
final cursor sits at len(r1) + 1 + len(r2)). -/
theorem C6_sequential_dictations (r1 r2 : List Char)
    (h1 : 0 < r1.length)
    (h2 : ¬ r1.get? (r1.length - 1) = some ' ') :
    (run initState (twoDictations r1 r2)).1.transcription = r1 ++ ' ' :: r2
      ∧ (run initState (twoDictations r1 r2)).1.cursor.start
          = r1.length + 1 + r2.length
      ∧ (run initState (twoDictations r1 r2)).1.cursor.endPos
          = r1.length + 1 + r2.length := by
  have key : (run initState (twoDictations r1 r2)).1.transcription
        = (mergeTranscription (mergeTranscription [] ⟨0, 0⟩ r1).newText
            (mergeTranscription [] ⟨0, 0⟩ r1).newCursor r2).newText
      ∧ (run initState (twoDictations r1 r2)).1.cursor
        = (mergeTranscription (mergeTranscription [] ⟨0, 0⟩ r1).newText
            (mergeTranscription [] ⟨0, 0⟩ r1).newCursor r2).newCursor :=
    ⟨rfl, rfl⟩
  have hm1 := merge_empty r1
  have hm2 := merge_after r1 r2 h1 h2
  rw [key.1, key.2, hm1] at *
  rw [show (MergeOut.mk r1 ⟨r1.length, r1.length⟩).newText = r1 from rfl,
      show (MergeOut.mk r1 ⟨r1.length, r1.length⟩).newCursor
        = ⟨r1.length, r1.length⟩ from rfl] at *
  rw [hm2]
  refine ⟨rfl, ?_, ?_⟩
  · show r1.length + r2.length + 1 = r1.length + 1 + r2.length
    omega
  · show r1.length + r2.length + 1 = r1.length + 1 + r2.length
    omega

/-- Witness for C6 (amended): dictating "a" then "b" from the initial
state yields "a b". -/
theorem C6_sequential_dictations_witness :
    (0 < "a".toList.length
        ∧ ¬ "a".toList.get? ("a".toList.length - 1) = some ' ')
      ∧ (run initState (twoDictations "a".toList "b".toList)).1.transcription
          = "a b".toList
      ∧ (run initState
            (twoDictations "a".toList "b".toList)).1.cursor.start = 3 := by
  have h := C6_sequential_dictations "a".toList "b".toList (by decide) (by decide)
  exact ⟨⟨by decide, by decide⟩, h.1.trans (by decide), h.2.1.trans (by decide)⟩

/-- C7 counterexample: the cursor invariant start ≤ end ≤ length(buffer)
is not preserved by reset.  Typing "hello" (a valid edit leaving cursor
{5,5}) and pressing Reset clears the buffer but leaves the tracked
cursor at {5,5}, violating end ≤ length. -/
theorem C7_reset_breaks_invariant :
    validAction initState (.edit "hello".toList 5 5)
      ∧ cursorOK (run initState [.edit "hello".toList 5 5]).1
      ∧ (run initState [.edit "hello".toList 5 5, .reset]).1.transcription = []
      ∧ (run initState [.edit "hello".toList 5 5, .reset]).1.cursor = ⟨5, 5⟩
      ∧ ¬ cursorOK (run initState [.edit "hello".toList 5 5, .reset]).1 := by
  decide

/-- C7 amended: every operation except reset — user edits and selection
changes (whose DOM-provided ranges lie within the new value), the
transcription merge, cancel, and all remaining actions — preserves the
invariant start ≤ end ≤ length(buffer); reset alone clears the buffer
without resetting the tracked cursor. -/
theorem C7_cursor_invariant_preserved (s : AppState) (a : Action)
    (hreset : a ≠ Action.reset) (hv : validAction s a) (h : cursorOK s) :
    cursorOK (step s a).1 := by
  obtain ⟨hse, hel⟩ := h
  cases a with
  | reset => exact absurd rfl hreset
  | edit text selStart selEnd =>
    obtain ⟨hv1, hv2⟩ := hv
    simp only [step]
    split
    · exact ⟨hse, hel⟩
    · exact ⟨hv1, hv2⟩
  | select selStart selEnd =>
    obtain ⟨hv1, hv2⟩ := hv
    simp only [step]
    split
    · exact ⟨hse, hel⟩
    · exact ⟨hv1, hv2⟩
  | resolveTranscribe sid res =>
    simp only [step]
    split
    · rename_i j lg rest heq
      refine ⟨le_refl _, ?_⟩
      show s.cursor.start + res.length
          + (mergeSeparator s.transcription s.cursor.start).length
        ≤ (s.transcription.take s.cursor.start
            ++ mergeSeparator s.transcription s.cursor.start
            ++ res ++ s.transcription.drop s.cursor.endPos).length
      simp only [List.length_append, List.length_take, List.length_drop]
      omega
    · exact ⟨hse, hel⟩
  | startOk =>
    simp only [step]
    split <;> exact ⟨hse, hel⟩
  | startFail =>
    simp only [step]
    split <;> exact ⟨hse, hel⟩
  | pause =>
    simp only [step]
    split
    · split <;> exact ⟨hse, hel⟩
    · exact ⟨hse, hel⟩
  | resume =>
    simp only [step]
    split
    · split <;> exact ⟨hse, hel⟩
    · exact ⟨hse, hel⟩
  | stopBtn =>
    simp only [step]
    split
    · split <;> exact ⟨hse, hel⟩
    · exact ⟨hse, hel⟩
  | cancel =>
    simp only [step]
    split
    · split <;> exact ⟨hse, hel⟩
    · exact ⟨hse, hel⟩
  | dataAvail size =>
    simp only [step]
    split
    · split <;> exact ⟨hse, hel⟩
    · exact ⟨hse, hel⟩
  | fireOnstop sid =>
    simp only [step]
    split
    · split
      · exact ⟨hse, hel⟩
      · split <;> exact ⟨hse, hel⟩
    · exact ⟨hse, hel⟩
  | fireReader sid =>
    simp only [step]
    split <;> exact ⟨hse, hel⟩
  | failTranscribe sid =>
    simp only [step]
    split <;> exact ⟨hse, hel⟩
  | formatBtn =>
    simp only [step]
    split
    · exact ⟨hse, hel⟩
    · split <;> exact ⟨hse, hel⟩
  | resolveFormat result =>
    simp only [step]
    split <;> exact ⟨hse, hel⟩
  | failFormat =>
    simp only [step]
    split <;> exact ⟨hse, hel⟩
  | editFormatted text =>
    simp only [step]
    split <;> exact ⟨hse, hel⟩
  | openLangModal =>
    simp only [step]
    exact ⟨hse, hel⟩
  | selectLang l =>
    simp only [step]
    split <;> exact ⟨hse, hel⟩
  | quickLang l =>
    simp only [step]
    split <;> exact ⟨hse, hel⟩
  | setStyle st =>
    simp only [step]
    split <;> exact ⟨hse, hel⟩

/-- Witness for C7 (amended): a valid edit from the initial state keeps
the invariant. -/
theorem C7_cursor_invariant_preserved_witness :
    validAction initState (.edit "ab".toList 1 1)
      ∧ cursorOK initState
      ∧ cursorOK (step initState (.edit "ab".toList 1 1)).1 :=
  ⟨by decide, by decide,
    C7_cursor_invariant_preserved initState (.edit "ab".toList 1 1)
      (by decide) (by decide) (by decide)⟩

/-- C8 counterexample: language selection is not locked while recording.
The language-modal trigger is always enabled, so after starting a
recording the user can open the modal and select a different language:
the selected language changes while the recording state is still
Recording. -/
theorem C8_language_not_locked :
    (run initState [.startOk, .openLangModal]).1.recordingState = .recording
      ∧ (run initState [.startOk, .openLangModal]).1.selectedLanguage = defaultLang
      ∧ (step (run initState [.startOk, .openLangModal]).1
            (.selectLang 5)).1.selectedLanguage = 5
      ∧ (step (run initState [.startOk, .openLangModal]).1
            (.selectLang 5)).1.recordingState = .recording
      ∧ (5 : Nat) ≠ defaultLang := by decide

/-- C8 amended: although the language can be changed mid-recording
through the modal, the transcription request still carries the language
captured when recording started (the stop handler closes over it): for
any language selected mid-flight, the dispatched request carries the
start-time default language while the state's selected language is the
new one. -/
theorem C8_start_language_captured (l : Nat) :
    (run initState (langLockTrace l)).2 = [.transcribeReq 1 1 defaultLang]
      ∧ (run initState (langLockTrace l)).1.selectedLanguage = l :=
  ⟨rfl, rfl⟩

end WhisperWriter
